import Mathlib

/-
Verification of the Ratatoskr event-board core: a shallow embedding of the
data model (events, signups), the SQLite-backed store operations
(database_manager.py), the signup reconciliation engine
(reaction_handler.py), the delivery deduplicator (main.py), the scheduler
sweeps (reminder.py), the time parser (time_parser.py) and the DM wizards
(event_create.py, event_manage.py), with theorems settling the frozen
claims about them.

Conventions of the embedding:
  * SQLite rows become Lean structures; a table becomes a `List` of rows,
    and SQL queries become `find?` / `filter` / `map` over that list.
  * The `events.event_time` column is TEXT holding an ISO-8601 UTC string;
    the SQL comparisons `event_time <= ?` etc. compare TEXT with the BINARY
    collation (byte order), which on these ASCII strings is exactly the
    lexicographic `String` order of Lean, so the embedding compares the
    strings directly.
  * External collaborators (the chat gateway, member-role resolution,
    wall-clock time) enter as explicit parameters or oracle functions in an
    `Env` structure; outbound gateway effects are returned as lists.
  * `async` methods become pure state-passing functions; an exception that a
    method catches internally becomes a `Bool`-valued oracle deciding
    whether the guarded call failed.
-/

namespace Ratatoskr

/-- One row of the `events` table (database_manager.py SCHEMA_SQL and
models/event.py). `event_time` and `created_at` are ISO-8601 UTC strings as
stored by the code. -/
structure Event where
  id : Nat
  message_id : String
  channel_id : String
  creator_id : String
  title : String
  description : String
  event_time : String
  created_at : String
  reminder_sent : Bool
  expired : Bool
deriving DecidableEq, Repr

/-- One row of the `signups` table (models/signup.py). -/
structure Signup where
  event_id : Nat
  user_id : String
  display_name : String
  role_key : String
  signed_up_at : String
deriving DecidableEq, Repr

/-- The persistent store: the two tables of database_manager.py. -/
structure DB where
  events : List Event
  signups : List Signup
deriving DecidableEq, Repr

/-- The reserved role key of the declined definition. -/
def declinedTag : String := "declined"

/-- SQLite compares TEXT with the BINARY collation, a byte-wise memcmp; on
the ASCII ISO-8601 strings the store holds that is the lexicographic
codepoint order, embedded here as an executable comparison (the library
order on `String` does not reduce in the kernel). -/
def ltChars : List Char → List Char → Bool
  | [], [] => false
  | [], _ :: _ => true
  | _ :: _, [] => false
  | a :: as, b :: bs =>
    if a < b then true else if b < a then false else ltChars as bs

/-- Strict TEXT comparison `s < t`. -/
def strLt (s t : String) : Bool := ltChars s.data t.data

/-- TEXT comparison `s <= t`: the negation of `t < s` in the total order. -/
def strLe (s t : String) : Bool := ! strLt t s

/-- ASCII whitespace, the characters python's str.strip() removes from the
inputs this system sees. -/
def isWS (c : Char) : Bool := c = ' ' ∨ c = '\t' ∨ c = '\n' ∨ c = '\r'

/-- python str.strip(): drop leading and trailing whitespace (executable
embedding; the library String.trim does not reduce in the kernel). -/
def pyStrip (s : String) : String :=
  ⟨((s.data.dropWhile isWS).reverse.dropWhile isWS).reverse⟩

/-- ASCII lowercasing of one character. -/
def lowerChar (c : Char) : Char :=
  if 'A' ≤ c ∧ c ≤ 'Z' then Char.ofNat (c.toNat + 32) else c

/-- python str.lower() on the ASCII strings compared here ("cancel",
"yes", the edit-menu options). -/
def pyLower (s : String) : String := ⟨s.data.map lowerChar⟩

/-- DatabaseManager.get_event_by_message_id: `SELECT * FROM events WHERE
message_id = ? AND expired = 0` (first matching row). -/
def get_event_by_message_id (db : DB) (message_id : String) : Option Event :=
  db.events.find? (fun e => e.message_id = message_id ∧ e.expired = false)

/-- DatabaseManager.get_event_by_id: `SELECT * FROM events WHERE id = ? AND
expired = 0` (first matching row). -/
def get_event_by_id (db : DB) (event_id : Nat) : Option Event :=
  db.events.find? (fun e => e.id = event_id ∧ e.expired = false)

/-- The column names DatabaseManager.update_event accepts
(`allowed = {"title", "description", "event_time"}`). -/
def allowedUpdateFields : List String := ["title", "description", "event_time"]

/-- One `k = v` item of update_event's SET clause applied to a row. -/
def applyField (e : Event) (kv : String × String) : Event :=
  if kv.1 = "title" then { e with title := kv.2 }
  else if kv.1 = "description" then { e with description := kv.2 }
  else if kv.1 = "event_time" then { e with event_time := kv.2 }
  else e

/-- DatabaseManager.update_event: keeps only the allowed fields, returns
without touching the database when none remain, otherwise updates the rows
whose id matches (the primary key makes that at most one row). -/
def update_event (db : DB) (event_id : Nat) (fields : List (String × String)) : DB :=
  let to_update := fields.filter (fun kv => allowedUpdateFields.contains kv.1)
  if to_update.isEmpty then db
  else
    { db with
      events := db.events.map (fun e =>
        if e.id = event_id then to_update.foldl applyField e else e) }

/-- DatabaseManager.mark_event_expired: `UPDATE events SET expired = 1 WHERE
id = ?`. -/
def mark_event_expired (db : DB) (event_id : Nat) : DB :=
  { db with
    events := db.events.map (fun e =>
      if e.id = event_id then { e with expired := true } else e) }

/-- DatabaseManager.mark_reminder_sent: `UPDATE events SET reminder_sent = 1
WHERE id = ?`. -/
def mark_reminder_sent (db : DB) (event_id : Nat) : DB :=
  { db with
    events := db.events.map (fun e =>
      if e.id = event_id then { e with reminder_sent := true } else e) }

/-- DatabaseManager.get_events_needing_reminder. The code computes
`now = datetime.now(utc)` and `cutoff = now + timedelta(minutes=15)` and
selects `expired = 0 AND reminder_sent = 0 AND event_time <= cutoff AND
event_time > now`; `now` and `cutoff` enter here as the ISO strings the
query is given. -/
def get_events_needing_reminder (db : DB) (now cutoff : String) : List Event :=
  db.events.filter (fun e =>
    e.expired = false ∧ e.reminder_sent = false ∧
      strLe e.event_time cutoff = true ∧ strLt now e.event_time = true)

/-- DatabaseManager.get_expired_events: selects `expired = 0 AND event_time
< cutoff` where the code computes `cutoff = now - timedelta(hours=cleanup_hours)`. -/
def get_expired_events (db : DB) (cutoff : String) : List Event :=
  db.events.filter (fun e => e.expired = false ∧ strLt e.event_time cutoff = true)

/-- Whether a signup row has the given composite key (event id, user id). -/
def signupKeyIs (event_id : Nat) (user_id : String) (s : Signup) : Prop :=
  s.event_id = event_id ∧ s.user_id = user_id

instance (event_id : Nat) (user_id : String) (s : Signup) :
    Decidable (signupKeyIs event_id user_id s) := by
  unfold signupKeyIs; infer_instance

/-- DatabaseManager.upsert_signup: `INSERT ... ON CONFLICT(event_id,
user_id) DO UPDATE SET display_name, role_key, signed_up_at`. `now` is the
`datetime('now')` value SQLite writes into `signed_up_at`. -/
def upsert_signup (db : DB) (event_id : Nat) (user_id display_name role_key now : String) :
    DB :=
  if db.signups.any (fun s => decide (signupKeyIs event_id user_id s)) then
    { db with
      signups := db.signups.map (fun s =>
        if signupKeyIs event_id user_id s then
          { s with display_name := display_name, role_key := role_key,
                   signed_up_at := now }
        else s) }
  else
    { db with
      signups := db.signups ++
        [⟨event_id, user_id, display_name, role_key, now⟩] }

/-- DatabaseManager.remove_signup: `DELETE FROM signups WHERE event_id = ?
AND user_id = ?`. -/
def remove_signup (db : DB) (event_id : Nat) (user_id : String) : DB :=
  { db with
    signups := db.signups.filter (fun s => ¬ signupKeyIs event_id user_id s) }

/-- DatabaseManager.get_signup: `SELECT * FROM signups WHERE event_id = ?
AND user_id = ?` (first row; the UNIQUE constraint makes it the only one). -/
def get_signup (db : DB) (event_id : Nat) (user_id : String) : Option Signup :=
  db.signups.find? (fun s => decide (signupKeyIs event_id user_id s))

/-- DatabaseManager.get_signups_for_reminder: the non-declined signups of an
event (`role_key != 'declined'`). Row order (signed_up_at) does not affect
any claim, so the stored order stands in for the ORDER BY. -/
def get_signups_for_reminder (db : DB) (event_id : Nat) : List Signup :=
  db.signups.filter (fun s => s.event_id = event_id ∧ s.role_key ≠ declinedTag)

/-- DatabaseManager.delete_signups_for_event: `DELETE FROM signups WHERE
event_id = ?`. -/
def delete_signups_for_event (db : DB) (event_id : Nat) : DB :=
  { db with signups := db.signups.filter (fun s => s.event_id ≠ event_id) }

/-! Role configuration (roles_config.json as read by event_formatter.py). -/

/-- One entry of `signup_roles` in roles_config.json. -/
structure RoleDef where
  key : String
  label : String
  emoji : String
  role_ids_accepted : List String
  role_id : String
deriving DecidableEq, Repr

/-- The parsed roles configuration: the ordered signup role list and the
emoji of the distinguished declined definition. -/
structure RolesConfig where
  signup_roles : List RoleDef
  declined_emoji : String
deriving DecidableEq, Repr

/-- event_formatter.emoji_to_role_key: first signup role whose emoji
matches, then the declined emoji, else none. -/
def emoji_to_role_key (emoji : String) (cfg : RolesConfig) : Option String :=
  match cfg.signup_roles.find? (fun rd => rd.emoji = emoji) with
  | some rd => some rd.key
  | none => if cfg.declined_emoji = emoji then some declinedTag else none

/-- event_formatter.role_key_to_emoji. -/
def role_key_to_emoji (role_key : String) (cfg : RolesConfig) : Option String :=
  if role_key = declinedTag then some cfg.declined_emoji
  else
    match cfg.signup_roles.find? (fun rd => rd.key = role_key) with
    | some rd => some rd.emoji
    | none => none

/-- event_formatter.get_accepted_role_ids: the `role_ids_accepted` list of
the role definition, falling back to its single `role_id` when that list is
empty, to the empty list when neither is set or the key is unknown. -/
def get_accepted_role_ids (role_key : String) (cfg : RolesConfig) : List String :=
  match cfg.signup_roles.find? (fun rd => rd.key = role_key) with
  | some rd =>
    if rd.role_ids_accepted.isEmpty then
      if rd.role_id = "" then [] else [rd.role_id]
    else rd.role_ids_accepted
  | none => []

/-! The signup reconciliation engine (reaction_handler.py). -/

/-- A pending-removal key: the (message id, user id, emoji) tuples of
`ReactionHandler._pending_removals`. -/
abbrev RemovalKey := String × String × String

/-- In-memory state of a ReactionHandler instance: the store handle and the
pending-removal set. The debounce registry holds only scheduled tasks; the
handler functions below return the event ids they schedule instead. -/
structure HState where
  db : DB
  pending : List RemovalKey
deriving DecidableEq, Repr

/-- The external collaborators of the reaction handler, as oracles:
`isStaff` is `_is_command_staff` (config + guild fetch, exceptions give
`false`); `memberRoles` is the `guild.fetch_member(...).roles` lookup of
`_user_has_role` (`none` when the fetch raises); `displayName` is
`_get_display_name`; `removeOk` tells whether the gateway call
`message.remove_reaction` succeeds for a given key; `nowStr` is the
`datetime('now')` SQLite writes into `signed_up_at`. -/
structure Env where
  isStaff : String → Bool
  memberRoles : String → Option (List String)
  displayName : String → String
  removeOk : RemovalKey → Bool
  nowStr : String

/-- ReactionHandler._remove_reaction: registers the key in the
pending-removal set, then issues the gateway removal; on failure the key is
discarded again. Returns the new pending set and the removal request issued
(registration always precedes the request, by this very composition). -/
def remove_reaction (env : Env) (pending : List RemovalKey)
    (message_id emoji user_id : String) : List RemovalKey × List RemovalKey :=
  let key : RemovalKey := (message_id, user_id, emoji)
  let pending1 := if pending.contains key then pending else key :: pending
  if env.removeOk key then (pending1, [key])
  else (pending1.erase key, [key])

/-- ReactionHandler._user_has_role: empty accepted-id list allows anyone;
otherwise the member's role ids must intersect it (a failed member fetch
denies). -/
def user_has_role (env : Env) (cfg : RolesConfig) (user_id role_key : String) : Bool :=
  let accepted := get_accepted_role_ids role_key cfg
  if accepted.isEmpty then true
  else
    match env.memberRoles user_id with
    | none => false
    | some rs => accepted.any (fun rid => rs.contains rid)

/-- ReactionHandler.handle_add, steps 1-7 of the source in order: tracked
event lookup, emoji resolution (foreign emoji removed), Command Staff
block, role-membership check, switch-path removal of the prior glyph,
signup upsert, debounced re-render. Returns the new state, the reaction
removals issued, and the event ids scheduled for re-render. -/
def handle_add (env : Env) (cfg : RolesConfig) (st : HState)
    (message_id user_id emoji : String) :
    HState × List RemovalKey × List Nat :=
  match get_event_by_message_id st.db message_id with
  | none => (st, [], [])
  | some event =>
    match emoji_to_role_key emoji cfg with
    | none =>
      let (p, iss) := remove_reaction env st.pending message_id emoji user_id
      ({ st with pending := p }, iss, [])
    | some role_key =>
      if env.isStaff user_id then
        let (p, iss) := remove_reaction env st.pending message_id emoji user_id
        ({ st with pending := p }, iss, [])
      else if role_key ≠ declinedTag ∧ user_has_role env cfg user_id role_key = false then
        let (p, iss) := remove_reaction env st.pending message_id emoji user_id
        ({ st with pending := p }, iss, [])
      else
        let (p1, iss1) :=
          match get_signup st.db event.id user_id with
          | some existing =>
            if existing.role_key ≠ role_key then
              match role_key_to_emoji existing.role_key cfg with
              | some old_emoji =>
                remove_reaction env st.pending message_id old_emoji user_id
              | none => (st.pending, [])
            else (st.pending, [])
          | none => (st.pending, [])
        let db1 := upsert_signup st.db event.id user_id
          (env.displayName user_id) role_key env.nowStr
        (⟨db1, p1⟩, iss1, [event.id])

/-- ReactionHandler.handle_remove: consume a self-inflicted removal from the
pending set and stop; otherwise resolve the event and emoji and delete the
matching signup. Returns the new state and the event ids scheduled for
re-render. -/
def handle_remove (st : HState) (cfg : RolesConfig)
    (message_id user_id emoji : String) : HState × List Nat :=
  let removal_key : RemovalKey := (message_id, user_id, emoji)
  if st.pending.contains removal_key then
    ({ st with pending := st.pending.erase removal_key }, [])
  else
    match get_event_by_message_id st.db message_id with
    | none => (st, [])
    | some event =>
      match emoji_to_role_key emoji cfg with
      | none => (st, [])
      | some role_key =>
        match get_signup st.db event.id user_id with
        | some existing =>
          if existing.role_key = role_key then
            ({ st with db := remove_signup st.db event.id user_id }, [event.id])
          else (st, [])
        | none => (st, [])

/-! The delivery deduplicator (main.py `_is_duplicate` and the event
dispatchers). Timestamps (`time.time()` floats) are modelled as integers;
every claim about them is order-theoretic. -/

/-- main.py `_DEDUP_TTL = 2.0` seconds. -/
def DEDUP_TTL : Int := 2

/-- main.py `_is_duplicate`: prune entries older than the TTL, report a hit
if the key survives pruning, otherwise record the key at the current time.
Returns the verdict and the new `_seen_events` table. -/
def is_duplicate (ttl : Int) (seen : List (String × Int)) (now : Int) (key : String) :
    Bool × List (String × Int) :=
  let pruned := seen.filter (fun kt => ¬ now - kt.2 > ttl)
  if pruned.any (fun kt => kt.1 = key) then (true, pruned)
  else (false, (key, now) :: pruned)

/-- The dedup key of main.py's `on_reaction_add` dispatcher,
`f"radd-{message.id}-{user.id}-{emoji}"`. -/
def raddKey (message_id user_id emoji : String) : String :=
  "radd-" ++ message_id ++ "-" ++ user_id ++ "-" ++ emoji

/-- main.py `on_reaction_add`: skip bots, drop duplicate deliveries, else
run ReactionHandler.handle_add. Returns the dedup table, the handler state,
and handle_add's outputs. -/
def on_reaction_add (env : Env) (cfg : RolesConfig)
    (seen : List (String × Int)) (st : HState) (now : Int)
    (message_id user_id emoji : String) (isBot : Bool) :
    List (String × Int) × HState × List RemovalKey × List Nat :=
  if isBot then (seen, st, [], [])
  else
    let r := is_duplicate DEDUP_TTL seen now (raddKey message_id user_id emoji)
    if r.1 then (r.2, st, [], [])
    else (r.2, handle_add env cfg st message_id user_id emoji)

/-! The scheduler sweeps (reminder.py). Each loop body, one sweep
iteration, is embedded as a function of the store; the surrounding `while`
with its `try`/`except` means an exception anywhere in the body is caught
after abandoning the rest of the body, and the next iteration still runs.
`throws e` is the oracle for "processing event `e` raised" (a store write
failing, or `get_signups_for_reminder` raising inside
`_send_reminders_for_event`; the per-user DM sends and the whole of
`_cleanup_event` catch their own exceptions and never raise). -/

/-- The processing of `_reminder_loop`'s selected list: for each event, send
the reminders then mark the flag; a raise abandons the remaining events
(the exception is caught by the loop-level `except`). -/
def reminder_go (throws : Event → Bool) : List Event → DB → DB
  | [], db => db
  | e :: rest, db =>
    if throws e then db
    else reminder_go throws rest (mark_reminder_sent db e.id)

/-- One iteration of ReminderHandler._reminder_loop: select the events
needing a reminder, then process the selected list. -/
def reminder_iteration (throws : Event → Bool) (db : DB) (now cutoff : String) : DB :=
  reminder_go throws (get_events_needing_reminder db now cutoff) db

/-- The processing of `_cleanup_loop`'s selected list: for each event,
`_cleanup_event` attempts the remote message deletion (all its exceptions
are caught inside, so the attempt always happens), then `mark_event_expired`
runs; a raise abandons the remaining events. Returns the store and the
message ids whose deletion was attempted. -/
def cleanup_go (throws : Event → Bool) : List Event → DB → DB × List String
  | [], db => (db, [])
  | e :: rest, db =>
    if throws e then (db, [e.message_id])
    else
      let r := cleanup_go throws rest (mark_event_expired db e.id)
      (r.1, e.message_id :: r.2)

/-- One iteration of ReminderHandler._cleanup_loop: select the active
events older than the grace cutoff, then process the selected list. -/
def cleanup_iteration (throws : Event → Bool) (db : DB) (cutoff : String) :
    DB × List String :=
  cleanup_go throws (get_expired_events db cutoff) db

/-! The time parser (time_parser.py). UTC instants are modelled as epoch
seconds (Int). The civil-date arithmetic below embeds what
`local_tz.localize(parsed).astimezone(timezone.utc)` computes for
`tz_name = "America/New_York"` (the configured default): the
proleptic-Gregorian day count and the post-2007 US daylight-saving rule of
the tz database (EDT from the second Sunday of March 02:00 to the first
Sunday of November 02:00; nonexistent and ambiguous wall times around the
transitions themselves are mapped with the standard-time choice, which no
claim exercises). -/

/-- Days from the proleptic-Gregorian epoch 0000-03-01 to year `y`, month
`m` (1-12), day `d` (civil day-count algorithm, valid for `y ≥ 1`). -/
def daysFromCivil (y m d : Nat) : Nat :=
  let y1 := if m ≤ 2 then y - 1 else y
  let era := y1 / 400
  let yoe := y1 % 400
  let mp := if m > 2 then m - 3 else m + 9
  let doy := (153 * mp + 2) / 5 + d - 1
  let doe := yoe * 365 + yoe / 4 - yoe / 100 + doy
  era * 146097 + doe

/-- Epoch seconds (1970-01-01T00:00:00Z) of the UTC instant with the given
civil fields; `daysFromCivil 1970 1 1 = 719468`. -/
def utcEpoch (y m d hh mi : Nat) : Int :=
  ((daysFromCivil y m d : Int) - 719468) * 86400 + hh * 3600 + mi * 60

/-- Day of week, 0 = Sunday (1970-01-01 was a Thursday, value 4). -/
def weekday (y m d : Nat) : Nat :=
  (daysFromCivil y m d + 3) % 7

/-- Day of month of the first Sunday of month `m` of year `y`. -/
def firstSundayOfMonth (y m : Nat) : Nat :=
  1 + (7 - weekday y m 1) % 7

/-- Whether US-Eastern daylight saving is in effect at the local wall time
(y, m, d, hh:mi): from the second Sunday of March 02:00 to the first Sunday
of November 02:00. -/
def isEasternDST (y m d hh mi : Nat) : Bool :=
  let mins := hh * 60 + mi
  if m < 3 ∨ m > 11 then false
  else if 3 < m ∧ m < 11 then true
  else if m = 3 then
    let ssm := firstSundayOfMonth y 3 + 7
    d > ssm ∨ (d = ssm ∧ 120 ≤ mins)
  else
    let fsn := firstSundayOfMonth y 11
    d < fsn ∨ (d = fsn ∧ mins < 120)

/-- The UTC epoch instant of a naive America/New_York wall time: the UTC
offset is -4 h under daylight saving and -5 h otherwise, so the instant is
the naive reading plus 4 or 5 hours. -/
def nyLocalToUTC (y m d hh mi : Nat) : Int :=
  utcEpoch y m d hh mi + (if isEasternDST y m d hh mi then 14400 else 18000)

/-- What `dateutil.parser.parse` returns on success: the civil fields and,
when the input carried timezone information, that UTC offset in seconds. -/
structure NaiveDT where
  year : Nat
  month : Nat
  day : Nat
  hour : Nat
  minute : Nat
  tzoffset : Option Int
deriving DecidableEq, Repr

/-- time_parser.py's empty-input message. -/
def msgNoTime : String := "No time provided. Please enter a date and time."

/-- time_parser.py's unparsable-input message, with its user-facing format
hint. -/
def msgCouldNotUnderstand (cleaned : String) : String :=
  "Could not understand '" ++ cleaned ++
    "' as a date/time. Try a format like 'Sunday, March 1, 2026 14:00'."

/-- time_parser.py's past-time message. -/
def msgPast (cleaned : String) : String :=
  "The time '" ++ cleaned ++ "' is in the past. Please provide a future date and time."

/-- time_parser.parse_event_time with `tz_name = "America/New_York"`:
strip, reject empty input, run the dateutil parser (an oracle; `none` is a
ValueError/OverflowError), localize naive results to America/New_York,
convert to UTC, and reject instants before `now`. An `Except.error` is a
raised TimeParseError carrying that message. -/
def parse_event_time (dateutil : String → Option NaiveDT) (now : Int)
    (raw_input : String) : Except String Int :=
  let cleaned := pyStrip raw_input
  if cleaned = "" then .error msgNoTime
  else
    match dateutil cleaned with
    | none => .error (msgCouldNotUnderstand cleaned)
    | some p =>
      let utc_dt :=
        match p.tzoffset with
        | some off => utcEpoch p.year p.month p.day p.hour p.minute - off
        | none => nyLocalToUTC p.year p.month p.day p.hour p.minute
      if utc_dt < now then .error (msgPast cleaned)
      else .ok utc_dt

/-! The DM wizards (event_create.py, event_manage.py). A dialogue script is
a list of DM replies, one per `_wait_for_dm` call: `none` is a timeout
(asyncio.TimeoutError, which aborts the dialogue), `some s` the reply text.
`_wait_for_dm` strips the reply before returning it. -/

/-- One `_wait_for_dm` call against the script: `none` on timeout (or an
exhausted script), otherwise the stripped reply and the remaining script. -/
def takeDM : List (Option String) → Option (String × List (Option String))
  | [] => none
  | none :: _ => none
  | some s :: rest => some (pyStrip s, rest)

/-- The loop body of EventCreateHandler._collect_time, recursing on the
remaining attempts: prompt, wait (timeout aborts), stop on the cancel
token, return the parsed time on success, retry on a TimeParseError, and
give up when the attempts are exhausted. `parse` is
`parse_event_time raw tz` collapsed to its success value. -/
def collect_go (parse : String → Option Int) :
    Nat → List (Option String) → Option Int
  | 0, _ => none
  | _ + 1, [] => none
  | n + 1, resp :: rest =>
    match resp with
    | none => none
    | some raw0 =>
      let raw := pyStrip raw0
      if pyLower raw = "cancel" then none
      else
        match parse raw with
        | some t => some t
        | none => collect_go parse n rest

/-- EventCreateHandler._collect_time: `max_retries = 3` attempts. -/
def collect_time (parse : String → Option Int) (script : List (Option String)) :
    Option Int :=
  collect_go parse 3 script

/-- EventCreateHandler._run_wizard: title step, description step (each
aborted by timeout or the cancel token), then the time step; `none` means
the dialogue aborted and `handle` creates no event. -/
def run_wizard (parse : String → Option Int) (script : List (Option String)) :
    Option (String × String × Int) :=
  match takeDM script with
  | none => none
  | some (title, s1) =>
    if pyLower title = "cancel" then none
    else
      match takeDM s1 with
      | none => none
      | some (description, s2) =>
        if pyLower description = "cancel" then none
        else
          match collect_time parse s2 with
          | none => none
          | some t => some (title, description, t)

/-- Whether EventCreateHandler.handle persists an event: it calls
`db.create_event` exactly when `_run_wizard` returned a triple. -/
def wizard_creates_event (parse : String → Option Int)
    (script : List (Option String)) : Bool :=
  (run_wizard parse script).isSome

/-- EventManageHandler.handle_edit from the point where the command's
event id has been parsed: look up the active event (a missing or expired
event aborts with a not-found notice), check the permission oracle
(`_can_manage`), then run the one-field edit dialogue; `parseIso` is
`parse_event_time(...).isoformat()` collapsed to its success value (a
TimeParseError aborts the edit). Returns the store and the event ids
re-rendered. -/
def handle_edit (parseIso : String → Option String) (canManage : Bool)
    (script : List (Option String)) (db : DB) (event_id : Nat) : DB × List Nat :=
  match get_event_by_id db event_id with
  | none => (db, [])
  | some event =>
    if canManage = false then (db, [])
    else
      match takeDM script with
      | none => (db, [])
      | some (choice0, s1) =>
        if pyLower choice0 = "cancel" then (db, [])
        else
          let choice := pyStrip (pyLower choice0)
          let updates : List (String × String) :=
            if choice = "title" then
              match takeDM s1 with
              | none => []
              | some (v, _) =>
                if v ≠ "" ∧ pyLower v ≠ "cancel" then [("title", v)] else []
            else if choice = "description" then
              match takeDM s1 with
              | none => []
              | some (v, _) =>
                if v ≠ "" ∧ pyLower v ≠ "cancel" then [("description", v)] else []
            else if choice = "time" then
              match takeDM s1 with
              | none => []
              | some (v, _) =>
                if v ≠ "" ∧ pyLower v ≠ "cancel" then
                  match parseIso v with
                  | some iso => [("event_time", iso)]
                  | none => []
                else []
            else []
          if updates.isEmpty then (db, [])
          else (update_event db event.id updates, [event.id])

/-- EventManageHandler.handle_delete from the point where the command's
event id has been parsed: look up the active event, check the permission
oracle, ask for confirmation (only the literal reply `yes`, lowercased,
deletes), then best-effort-delete the remote message, delete the event's
signups and mark it expired. Returns the store and the message ids whose
remote deletion was attempted. -/
def handle_delete (canManage : Bool) (script : List (Option String))
    (db : DB) (event_id : Nat) : DB × List String :=
  match get_event_by_id db event_id with
  | none => (db, [])
  | some event =>
    if canManage = false then (db, [])
    else
      match takeDM script with
      | none => (db, [])
      | some (response, _) =>
        if pyLower response ≠ "yes" then (db, [])
        else
          let db1 := delete_signups_for_event db event.id
          (mark_event_expired db1 event.id, [event.message_id])

/-! Helper lemmas shared by the claim theorems. -/

/-- The event columns update_event must never write: everything except
title, description and event_time. -/
def frameFields (e : Event) : Nat × String × String × String × String × Bool × Bool :=
  (e.id, e.message_id, e.channel_id, e.creator_id, e.created_at,
    e.reminder_sent, e.expired)

theorem applyField_frame (e : Event) (kv : String × String) :
    frameFields (applyField e kv) = frameFields e := by
  unfold applyField
  split
  · rfl
  · split
    · rfl
    · split <;> rfl

theorem foldl_applyField_frame (l : List (String × String)) (e : Event) :
    frameFields (l.foldl applyField e) = frameFields e := by
  induction l generalizing e with
  | nil => rfl
  | cons kv rest ih =>
    rw [List.foldl_cons, ih (applyField e kv), applyField_frame]

/-- Claim C10: a call to update_event writes only fields named title,
description or event_time — any other field name is silently ignored (the
call equals the call on the allowed sublist), a call supplying no allowed
field performs no database write at all, and in every case the events'
id, message_id, channel_id, creator_id, created_at, reminder_sent and
expired columns — and the signups table — are unchanged. -/
theorem claim_C10 (db : DB) (event_id : Nat) (fields : List (String × String)) :
    update_event db event_id fields
      = update_event db event_id
          (fields.filter (fun kv => allowedUpdateFields.contains kv.1))
    ∧ ((fields.filter (fun kv => allowedUpdateFields.contains kv.1)).isEmpty →
        update_event db event_id fields = db)
    ∧ (update_event db event_id fields).events.map frameFields
        = db.events.map frameFields
    ∧ (update_event db event_id fields).signups = db.signups := by
  refine ⟨?_, ?_, ?_, ?_⟩
  · unfold update_event
    rw [List.filter_filter]
    simp only [Bool.and_self]
  · intro h
    unfold update_event
    dsimp only
    rw [if_pos h]
  · unfold update_event
    dsimp only
    by_cases hte :
        (fields.filter (fun kv => allowedUpdateFields.contains kv.1)).isEmpty = true
    · rw [if_pos hte]
    · rw [if_neg hte]
      simp only [List.map_map]
      refine List.map_congr_left ?_
      intro e _
      simp only [Function.comp_apply]
      split
      · exact foldl_applyField_frame _ e
      · rfl
  · unfold update_event
    dsimp only
    by_cases hte :
        (fields.filter (fun kv => allowedUpdateFields.contains kv.1)).isEmpty = true
    · rw [if_pos hte]
    · rw [if_neg hte]

/-- Witness for C10 at a concrete store: a call naming only disallowed
fields (creator_id, expired) leaves the store untouched. -/
theorem claim_C10_witness :
    update_event
        ⟨[⟨1, "m1", "c1", "u9", "Op", "d", "2026-03-01T19:00:00+00:00",
            "2026-02-01T00:00:00+00:00", false, false⟩], []⟩ 1
        [("creator_id", "evil"), ("expired", "1")]
      = ⟨[⟨1, "m1", "c1", "u9", "Op", "d", "2026-03-01T19:00:00+00:00",
            "2026-02-01T00:00:00+00:00", false, false⟩], []⟩ :=
  (claim_C10
      ⟨[⟨1, "m1", "c1", "u9", "Op", "d", "2026-03-01T19:00:00+00:00",
          "2026-02-01T00:00:00+00:00", false, false⟩], []⟩ 1
      [("creator_id", "evil"), ("expired", "1")]).2.1 (by decide)

/-- Claim C2: a reaction-remove whose (message id, user id, glyph) tuple is
in the pending-removal set consumes (discards) that entry and returns: the
store is untouched (no Signup read back differs, none created, updated or
deleted) and no re-render is scheduled. In the source this branch precedes
every store access. -/
theorem claim_C2 (st : HState) (cfg : RolesConfig) (mid uid emoji : String)
    (h : st.pending.contains (mid, uid, emoji) = true) :
    handle_remove st cfg mid uid emoji
      = ({ st with pending := st.pending.erase (mid, uid, emoji) }, []) := by
  unfold handle_remove
  dsimp only
  rw [if_pos h]

/-- Witness for C2: a concrete self-inflicted removal is consumed and
mutates nothing but the pending set. -/
theorem claim_C2_witness :
    handle_remove ⟨⟨[], []⟩, [("m1", "u1", "T")]⟩ ⟨[], "X"⟩ "m1" "u1" "T"
      = (⟨⟨[], []⟩, []⟩, []) :=
  claim_C2 ⟨⟨[], []⟩, [("m1", "u1", "T")]⟩ ⟨[], "X"⟩ "m1" "u1" "T" (by decide)

theorem handle_add_none (env : Env) (cfg : RolesConfig) (st : HState)
    (mid uid emoji : String) (h : get_event_by_message_id st.db mid = none) :
    handle_add env cfg st mid uid emoji = (st, [], []) := by
  unfold handle_add
  rw [h]

theorem handle_remove_db_untouched (st : HState) (cfg : RolesConfig)
    (mid uid emoji : String) (h : get_event_by_message_id st.db mid = none) :
    (handle_remove st cfg mid uid emoji).1.db = st.db
    ∧ (handle_remove st cfg mid uid emoji).2 = [] := by
  unfold handle_remove
  dsimp only
  split
  · exact ⟨rfl, rfl⟩
  · rw [h]
    exact ⟨rfl, rfl⟩

/-- Claim C9: an event whose expired flag is set is invisible to both store
lookups (they filter on expired = 0), and therefore the operations that
begin with those lookups — reaction add and remove handling by message id,
edit and delete by event id — read and mutate nothing for a retired event.
The uniqueness hypotheses are the schema's PRIMARY KEY on id and UNIQUE
constraint on message_id. -/
theorem claim_C9 (db : DB) (e : Event) (_he : e ∈ db.events)
    (hexp : e.expired = true)
    (hid : ∀ e' ∈ db.events, e'.id = e.id → e' = e)
    (hmid : ∀ e' ∈ db.events, e'.message_id = e.message_id → e' = e) :
    get_event_by_id db e.id = none
    ∧ get_event_by_message_id db e.message_id = none
    ∧ (∀ env cfg pending uid emoji,
        handle_add env cfg ⟨db, pending⟩ e.message_id uid emoji
          = (⟨db, pending⟩, [], []))
    ∧ (∀ cfg pending uid emoji,
        (handle_remove ⟨db, pending⟩ cfg e.message_id uid emoji).1.db = db
        ∧ (handle_remove ⟨db, pending⟩ cfg e.message_id uid emoji).2 = [])
    ∧ (∀ parseIso canManage script,
        handle_edit parseIso canManage script db e.id = (db, []))
    ∧ (∀ canManage script, handle_delete canManage script db e.id = (db, [])) := by
  have hby_id : get_event_by_id db e.id = none := by
    unfold get_event_by_id
    rw [List.find?_eq_none]
    intro x hx
    simp only [decide_eq_true_eq, not_and]
    intro hxi
    rw [hid x hx hxi, hexp]
    simp
  have hby_mid : get_event_by_message_id db e.message_id = none := by
    unfold get_event_by_message_id
    rw [List.find?_eq_none]
    intro x hx
    simp only [decide_eq_true_eq, not_and]
    intro hxm
    rw [hmid x hx hxm, hexp]
    simp
  refine ⟨hby_id, hby_mid, ?_, ?_, ?_, ?_⟩
  · intro env cfg pending uid emoji
    exact handle_add_none env cfg ⟨db, pending⟩ e.message_id uid emoji hby_mid
  · intro cfg pending uid emoji
    exact handle_remove_db_untouched ⟨db, pending⟩ cfg e.message_id uid emoji hby_mid
  · intro parseIso canManage script
    unfold handle_edit
    rw [hby_id]
  · intro canManage script
    unfold handle_delete
    rw [hby_id]

/-- Witness for C9 at a concrete store holding one retired event: both
lookups return none and the delete command is a no-op on it. -/
theorem claim_C9_witness :
    get_event_by_id
        ⟨[⟨7, "mX", "c", "u", "Done", "", "2026-01-01T00:00:00+00:00",
            "2025-12-01T00:00:00+00:00", true, true⟩], []⟩ 7 = none
    ∧ get_event_by_message_id
        ⟨[⟨7, "mX", "c", "u", "Done", "", "2026-01-01T00:00:00+00:00",
            "2025-12-01T00:00:00+00:00", true, true⟩], []⟩ "mX" = none := by
  have h := claim_C9
    ⟨[⟨7, "mX", "c", "u", "Done", "", "2026-01-01T00:00:00+00:00",
        "2025-12-01T00:00:00+00:00", true, true⟩], []⟩
    ⟨7, "mX", "c", "u", "Done", "", "2026-01-01T00:00:00+00:00",
      "2025-12-01T00:00:00+00:00", true, true⟩
    (by decide) (by decide) (by decide) (by decide)
  exact ⟨h.1, h.2.1⟩

/-- mark_reminder_sent only sets the flag of the matching id; an already-set
id stays set through any further reminder processing. -/
theorem reminder_go_keeps_marked (throws : Event → Bool) (l : List Event)
    (db : DB) (i : Nat)
    (h : ∀ e' ∈ db.events, e'.id = i → e'.reminder_sent = true) :
    ∀ e' ∈ (reminder_go throws l db).events, e'.id = i → e'.reminder_sent = true := by
  induction l generalizing db with
  | nil => exact h
  | cons x rest ih =>
    unfold reminder_go
    split
    · exact h
    · refine ih (mark_reminder_sent db x.id) ?_
      intro e' he' hi
      unfold mark_reminder_sent at he'
      simp only [List.mem_map] at he'
      obtain ⟨a, ha, rfl⟩ := he'
      by_cases hax : a.id = x.id
      · rw [if_pos hax]
      · rw [if_neg hax] at hi ⊢
        exact h a ha hi

/-- An event processed by the reminder loop body ends up with its
reminder flag set (for every row carrying its id). -/
theorem reminder_go_marks (l : List Event) (db : DB) (e : Event) (hel : e ∈ l) :
    ∀ e' ∈ (reminder_go (fun _ => false) l db).events, e'.id = e.id →
      e'.reminder_sent = true := by
  induction l generalizing db with
  | nil => cases hel
  | cons x rest ih =>
    unfold reminder_go
    simp only [Bool.false_eq_true, if_false]
    rcases List.mem_cons.mp hel with rfl | hmem
    · refine reminder_go_keeps_marked _ rest (mark_reminder_sent db e.id) e.id ?_
      intro e' he' hi
      unfold mark_reminder_sent at he'
      simp only [List.mem_map] at he'
      obtain ⟨a, ha, rfl⟩ := he'
      by_cases hax : a.id = e.id
      · rw [if_pos hax]
      · rw [if_neg hax] at hi ⊢
        exact absurd hi hax
    · exact ih (mark_reminder_sent db x.id) hmem

/-- Claim C6: an active, not-yet-reminded event whose time lies strictly
inside the lead window (e.g. 10 minutes ahead of now, window 15 minutes) is
selected by the reminder sweep; one beyond the cutoff (e.g. 20 minutes
ahead) is not; once the sweep has processed it — or once its flag is marked
directly — no later selection, at any now/cutoff, ever returns a row with
its id again. `now` and `cutoff` are the ISO strings the query compares
against (`cutoff` is now + 15 minutes). -/
theorem claim_C6 (db : DB) (e : Event) (he : e ∈ db.events)
    (hexp : e.expired = false) (hrs : e.reminder_sent = false)
    (now cutoff : String) :
    (strLt now e.event_time = true → strLe e.event_time cutoff = true →
      e ∈ get_events_needing_reminder db now cutoff)
    ∧ (strLt cutoff e.event_time = true →
        e ∉ get_events_needing_reminder db now cutoff)
    ∧ (∀ now' cutoff' e', e' ∈ get_events_needing_reminder
          (mark_reminder_sent db e.id) now' cutoff' → e'.id ≠ e.id)
    ∧ (e ∈ get_events_needing_reminder db now cutoff →
        ∀ now' cutoff' e', e' ∈ get_events_needing_reminder
          (reminder_iteration (fun _ => false) db now cutoff) now' cutoff' →
        e'.id ≠ e.id) := by
  refine ⟨?_, ?_, ?_, ?_⟩
  · intro h1 h2
    unfold get_events_needing_reminder
    rw [List.mem_filter]
    exact ⟨he, by simp [hexp, hrs, h1, h2]⟩
  · intro h1 hmem
    unfold get_events_needing_reminder at hmem
    rw [List.mem_filter] at hmem
    have h2 := hmem.2
    simp only [decide_eq_true_eq, strLe] at h2
    rw [h1] at h2
    simp at h2
  · intro now' cutoff' e' hmem hi
    unfold get_events_needing_reminder at hmem
    rw [List.mem_filter] at hmem
    obtain ⟨hmem1, hmem2⟩ := hmem
    simp only [decide_eq_true_eq] at hmem2
    unfold mark_reminder_sent at hmem1
    simp only [List.mem_map] at hmem1
    obtain ⟨a, _, rfl⟩ := hmem1
    by_cases hax : a.id = e.id
    · rw [if_pos hax] at hmem2
      simp at hmem2
    · rw [if_neg hax] at hi
      exact hax hi
  · intro hsel now' cutoff' e' hmem hi
    unfold get_events_needing_reminder at hmem
    rw [List.mem_filter] at hmem
    obtain ⟨hmem1, hmem2⟩ := hmem
    simp only [decide_eq_true_eq] at hmem2
    have := reminder_go_marks _ db e hsel e' hmem1 hi
    rw [hmem2.2.1] at this
    cases this

/-- A 12:10 event seen from 12:00 with the 12:15 cutoff. -/
def eventC6a : Event :=
  ⟨1, "m10", "c", "u", "Op10", "", "2026-10-12T12:10:00+00:00",
    "2026-10-01T00:00:00+00:00", false, false⟩

/-- A 12:20 event seen from 12:00 with the 12:15 cutoff. -/
def eventC6b : Event :=
  ⟨2, "m20", "c", "u", "Op20", "", "2026-10-12T12:20:00+00:00",
    "2026-10-01T00:00:00+00:00", false, false⟩

/-- The store of the C6 witness. -/
def dbC6 : DB := ⟨[eventC6a, eventC6b], []⟩

/-- Witness for C6: at now = 12:00 with the 15-minute cutoff, the event 10
minutes out is selected, the one 20 minutes out is not. -/
theorem claim_C6_witness :
    eventC6a ∈ get_events_needing_reminder dbC6
        "2026-10-12T12:00:00+00:00" "2026-10-12T12:15:00+00:00"
    ∧ eventC6b ∉ get_events_needing_reminder dbC6
        "2026-10-12T12:00:00+00:00" "2026-10-12T12:15:00+00:00" :=
  ⟨(claim_C6 dbC6 eventC6a (by decide) (by decide) (by decide)
      "2026-10-12T12:00:00+00:00" "2026-10-12T12:15:00+00:00").1
      (by decide) (by decide),
   (claim_C6 dbC6 eventC6b (by decide) (by decide) (by decide)
      "2026-10-12T12:00:00+00:00" "2026-10-12T12:15:00+00:00").2.1 (by decide)⟩

/-- A key survives the pruning pass and matches exactly when it was
recorded within the TTL window before the call. -/
theorem dedup_hit_iff (ttl : Int) (seen : List (String × Int)) (now : Int)
    (key : String) :
    (is_duplicate ttl seen now key).1 = true
      ↔ ∃ t, (key, t) ∈ seen ∧ now - t ≤ ttl := by
  have hany : ((seen.filter (fun kt => ¬ now - kt.2 > ttl)).any
        (fun kt => kt.1 = key) = true)
      ↔ ∃ t, (key, t) ∈ seen ∧ now - t ≤ ttl := by
    rw [List.any_eq_true]
    constructor
    · rintro ⟨x, hx, hk⟩
      rw [List.mem_filter] at hx
      simp only [decide_eq_true_eq] at hx hk
      refine ⟨x.2, ?_, not_lt.mp hx.2⟩
      rw [← hk]
      exact hx.1
    · rintro ⟨t, hmem, hle⟩
      refine ⟨(key, t), ?_, by simp⟩
      rw [List.mem_filter]
      exact ⟨hmem, by simp only [decide_eq_true_eq]; exact not_lt.mpr hle⟩
  unfold is_duplicate
  dsimp only
  split
  · next hc => exact iff_of_true rfl (hany.mp hc)
  · next hc => exact iff_of_false Bool.false_ne_true (fun hex => hc (hany.mpr hex))

/-- On a duplicate hit the table is only pruned: no timestamp refresh. -/
theorem dedup_table_hit (ttl : Int) (seen : List (String × Int)) (now : Int)
    (key : String) (h : (is_duplicate ttl seen now key).1 = true) :
    (is_duplicate ttl seen now key).2
      = seen.filter (fun kt => ¬ now - kt.2 > ttl) := by
  unfold is_duplicate at h ⊢
  dsimp only at h ⊢
  split at h
  · next hc =>
    rw [if_pos hc]
  · cases h

/-- On a miss the table is pruned and the key recorded at the current time. -/
theorem dedup_table_miss (ttl : Int) (seen : List (String × Int)) (now : Int)
    (key : String) (h : (is_duplicate ttl seen now key).1 = false) :
    (is_duplicate ttl seen now key).2
      = (key, now) :: seen.filter (fun kt => ¬ now - kt.2 > ttl) := by
  unfold is_duplicate at h ⊢
  dsimp only at h ⊢
  split at h
  · cases h
  · next hc =>
    rw [if_neg hc]

/-- A dropped (duplicate) delivery leaves the reconciliation state alone. -/
theorem dispatch_dup (env : Env) (cfg : RolesConfig) (seen : List (String × Int))
    (st : HState) (now : Int) (mid uid emoji : String)
    (h : (is_duplicate DEDUP_TTL seen now (raddKey mid uid emoji)).1 = true) :
    (on_reaction_add env cfg seen st now mid uid emoji false).2.1 = st := by
  unfold on_reaction_add
  dsimp only
  rw [if_neg Bool.false_ne_true, if_pos h]

/-- A fresh delivery runs the handler once and returns the updated table. -/
theorem dispatch_fresh (env : Env) (cfg : RolesConfig) (seen : List (String × Int))
    (st : HState) (now : Int) (mid uid emoji : String)
    (h : (is_duplicate DEDUP_TTL seen now (raddKey mid uid emoji)).1 = false) :
    (on_reaction_add env cfg seen st now mid uid emoji false).2.1
      = (handle_add env cfg st mid uid emoji).1
    ∧ (on_reaction_add env cfg seen st now mid uid emoji false).1
      = (is_duplicate DEDUP_TTL seen now (raddKey mid uid emoji)).2 := by
  unfold on_reaction_add
  dsimp only
  rw [if_neg Bool.false_ne_true, if_neg (by rw [h]; exact Bool.false_ne_true)]
  exact ⟨rfl, rfl⟩

/-- Claim C5: is_duplicate returns true exactly when the key was recorded
within the TTL window before the call (in which case it only prunes — the
caller drops the delivery), otherwise it records the current time for the
key and returns false; consequently delivering the same reaction key twice
within the dedup window mutates the reconciliation state exactly once (the
second dispatch leaves it untouched). -/
theorem claim_C5 (ttl : Int) (seen : List (String × Int)) (now : Int) (key : String) :
    ((is_duplicate ttl seen now key).1 = true
      ↔ ∃ t, (key, t) ∈ seen ∧ now - t ≤ ttl)
    ∧ ((is_duplicate ttl seen now key).1 = true →
        (is_duplicate ttl seen now key).2
          = seen.filter (fun kt => ¬ now - kt.2 > ttl))
    ∧ ((is_duplicate ttl seen now key).1 = false →
        (is_duplicate ttl seen now key).2
          = (key, now) :: seen.filter (fun kt => ¬ now - kt.2 > ttl))
    ∧ (∀ env cfg st mid uid emoji t2,
        (¬ ∃ t, (raddKey mid uid emoji, t) ∈ seen ∧ now - t ≤ DEDUP_TTL) →
        t2 - now ≤ DEDUP_TTL →
        (on_reaction_add env cfg seen st now mid uid emoji false).2.1
          = (handle_add env cfg st mid uid emoji).1
        ∧ (on_reaction_add env cfg
              (on_reaction_add env cfg seen st now mid uid emoji false).1
              (on_reaction_add env cfg seen st now mid uid emoji false).2.1
              t2 mid uid emoji false).2.1
          = (on_reaction_add env cfg seen st now mid uid emoji false).2.1) := by
  refine ⟨dedup_hit_iff ttl seen now key, dedup_table_hit ttl seen now key,
    dedup_table_miss ttl seen now key, ?_⟩
  intro env cfg st mid uid emoji t2 hfresh hwin
  have h1 : (is_duplicate DEDUP_TTL seen now (raddKey mid uid emoji)).1 = false := by
    rcases Bool.eq_false_or_eq_true
        (is_duplicate DEDUP_TTL seen now (raddKey mid uid emoji)).1 with ht | hf
    · exact absurd ((dedup_hit_iff _ seen now _).mp ht) hfresh
    · exact hf
  obtain ⟨hst1, htab1⟩ := dispatch_fresh env cfg seen st now mid uid emoji h1
  refine ⟨hst1, ?_⟩
  have hmem : (raddKey mid uid emoji, now)
      ∈ (on_reaction_add env cfg seen st now mid uid emoji false).1 := by
    rw [htab1, dedup_table_miss _ seen now _ h1]
    exact List.mem_cons_self _ _
  have h2 : (is_duplicate DEDUP_TTL
      (on_reaction_add env cfg seen st now mid uid emoji false).1 t2
      (raddKey mid uid emoji)).1 = true :=
    (dedup_hit_iff _ _ t2 _).mpr ⟨now, hmem, hwin⟩
  exact dispatch_dup env cfg _ _ t2 mid uid emoji h2

/-- Witness for C5 at concrete values: the first delivery of a reaction key
at time 0 is processed (handler applied to an empty store holding no
tracked event, a no-op), the repeat delivery at time 1 is dropped. -/
theorem claim_C5_witness :
    (on_reaction_add ⟨fun _ => false, fun _ => some [], fun _ => "N",
        fun _ => true, "t0"⟩ ⟨[], "X"⟩ [] ⟨⟨[], []⟩, []⟩ 0 "m1" "u1" "D" false).2.1
      = (handle_add ⟨fun _ => false, fun _ => some [], fun _ => "N",
          fun _ => true, "t0"⟩ ⟨[], "X"⟩ ⟨⟨[], []⟩, []⟩ "m1" "u1" "D").1
    ∧ (on_reaction_add ⟨fun _ => false, fun _ => some [], fun _ => "N",
        fun _ => true, "t0"⟩ ⟨[], "X"⟩
        (on_reaction_add ⟨fun _ => false, fun _ => some [], fun _ => "N",
          fun _ => true, "t0"⟩ ⟨[], "X"⟩ [] ⟨⟨[], []⟩, []⟩ 0 "m1" "u1" "D" false).1
        (on_reaction_add ⟨fun _ => false, fun _ => some [], fun _ => "N",
          fun _ => true, "t0"⟩ ⟨[], "X"⟩ [] ⟨⟨[], []⟩, []⟩ 0 "m1" "u1" "D" false).2.1
        1 "m1" "u1" "D" false).2.1
      = (on_reaction_add ⟨fun _ => false, fun _ => some [], fun _ => "N",
          fun _ => true, "t0"⟩ ⟨[], "X"⟩ [] ⟨⟨[], []⟩, []⟩ 0 "m1" "u1" "D" false).2.1 :=
  (claim_C5 DEDUP_TTL [] 0 (raddKey "m1" "u1" "D")).2.2.2
    ⟨fun _ => false, fun _ => some [], fun _ => "N", fun _ => true, "t0"⟩
    ⟨[], "X"⟩ ⟨⟨[], []⟩, []⟩ "m1" "u1" "D" 1 (by simp) (by decide)

/-- A successful bot-initiated removal: the key is registered in the
pending set (and stays there, the gateway call having succeeded), and
exactly that one removal is issued. -/
theorem remove_reaction_ok (env : Env) (pending : List RemovalKey)
    (mid emoji uid : String) (h : env.removeOk (mid, uid, emoji) = true) :
    (remove_reaction env pending mid emoji uid).1.contains (mid, uid, emoji) = true
    ∧ (remove_reaction env pending mid emoji uid).2 = [(mid, uid, emoji)] := by
  unfold remove_reaction
  dsimp only
  rw [if_pos h]
  refine ⟨?_, rfl⟩
  split
  · next hc => exact hc
  · simp [List.contains_cons]

/-- Looking up the upserted key after the update path of upsert_signup. -/
theorem find?_map_update (l : List Signup) (eid : Nat) (uid name rk now : String)
    (h : l.any (fun s => decide (signupKeyIs eid uid s)) = true) :
    (l.map (fun s =>
        if signupKeyIs eid uid s then
          { s with display_name := name, role_key := rk, signed_up_at := now }
        else s)).find? (fun s => decide (signupKeyIs eid uid s))
      = some ⟨eid, uid, name, rk, now⟩ := by
  induction l with
  | nil => cases h
  | cons x xs ih =>
    by_cases hx : signupKeyIs eid uid x
    · rw [List.map_cons, if_pos hx, List.find?_cons_of_pos]
      · obtain ⟨h1, h2⟩ := hx
        cases x
        simp only at h1 h2
        rw [h1, h2]
      · simp only [decide_eq_true_eq]
        exact ⟨hx.1, hx.2⟩
    · have h' : xs.any (fun s => decide (signupKeyIs eid uid s)) = true := by
        rcases List.any_eq_true.mp h with ⟨y, hy, hpy⟩
        rcases List.mem_cons.mp hy with rfl | hys
        · exact absurd (decide_eq_true_eq.mp hpy) hx
        · exact List.any_eq_true.mpr ⟨y, hys, hpy⟩
      rw [List.map_cons, if_neg hx, List.find?_cons_of_neg]
      · exact ih h'
      · simpa using hx

/-- Looking up the inserted key after the append path of upsert_signup. -/
theorem find?_append_new (l : List Signup) (eid : Nat) (uid name rk now : String)
    (h : l.any (fun s => decide (signupKeyIs eid uid s)) = false) :
    (l ++ [(⟨eid, uid, name, rk, now⟩ : Signup)]).find?
        (fun s => decide (signupKeyIs eid uid s))
      = some ⟨eid, uid, name, rk, now⟩ := by
  induction l with
  | nil =>
    rw [List.nil_append, List.find?_cons_of_pos]
    simp [signupKeyIs]
  | cons x xs ih =>
    have hx : ¬ signupKeyIs eid uid x := by
      intro hk
      have : (x :: xs).any (fun s => decide (signupKeyIs eid uid s)) = true :=
        List.any_eq_true.mpr ⟨x, List.mem_cons_self x xs, by simpa using hk⟩
      rw [h] at this
      cases this
    have h' : xs.any (fun s => decide (signupKeyIs eid uid s)) = false := by
      rcases Bool.eq_false_or_eq_true (xs.any (fun s => decide (signupKeyIs eid uid s)))
        with ht | hf
      · rcases List.any_eq_true.mp ht with ⟨y, hy, hpy⟩
        have : (x :: xs).any (fun s => decide (signupKeyIs eid uid s)) = true :=
          List.any_eq_true.mpr ⟨y, List.mem_cons_of_mem x hy, hpy⟩
        rw [h] at this
        cases this
      · exact hf
    rw [List.cons_append, List.find?_cons_of_neg]
    · exact ih h'
    · simpa using hx

/-- After upsert_signup, get_signup returns exactly the upserted row. -/
theorem get_signup_upsert (db : DB) (eid : Nat) (uid name rk now : String) :
    get_signup (upsert_signup db eid uid name rk now) eid uid
      = some ⟨eid, uid, name, rk, now⟩ := by
  unfold get_signup upsert_signup
  split
  · next hany => exact find?_map_update db.signups eid uid name rk now hany
  · next hany =>
    refine find?_append_new db.signups eid uid name rk now ?_
    rcases Bool.eq_false_or_eq_true
        (db.signups.any (fun s => decide (signupKeyIs eid uid s))) with ht | hf
    · exact absurd ht hany
    · exact hf

/-- Claim C1: a reaction-add on a tracked active event by a non-staff,
eligible user who already holds a Signup with a different role key issues
exactly one reaction removal — the prior role's glyph, whose key is in the
pending-removal set when the handler returns (registration precedes the
gateway call inside remove_reaction by construction, and the removal
succeeded here) — then upserts the Signup, so the final row for the
(event, user) pair carries exactly the newly resolved role key and the
user's current display name; the handler runs the removal before the
upsert, and schedules one re-render of the event. -/
theorem claim_C1 (env : Env) (cfg : RolesConfig) (st : HState)
    (mid uid emoji rk old_emoji : String) (event : Event) (existing : Signup)
    (hev : get_event_by_message_id st.db mid = some event)
    (hrk : emoji_to_role_key emoji cfg = some rk)
    (hstaff : env.isStaff uid = false)
    (helig : rk = declinedTag ∨ user_has_role env cfg uid rk = true)
    (hsig : get_signup st.db event.id uid = some existing)
    (hdiff : existing.role_key ≠ rk)
    (hold : role_key_to_emoji existing.role_key cfg = some old_emoji)
    (hok : env.removeOk (mid, uid, old_emoji) = true) :
    (handle_add env cfg st mid uid emoji).2.1 = [(mid, uid, old_emoji)]
    ∧ (handle_add env cfg st mid uid emoji).1.pending.contains
        (mid, uid, old_emoji) = true
    ∧ get_signup (handle_add env cfg st mid uid emoji).1.db event.id uid
        = some ⟨event.id, uid, env.displayName uid, rk, env.nowStr⟩
    ∧ (handle_add env cfg st mid uid emoji).2.2 = [event.id] := by
  have hnotblock : ¬ (rk ≠ declinedTag ∧ user_has_role env cfg uid rk = false) := by
    rintro ⟨hne, hfail⟩
    rcases helig with hdecl | helig
    · exact hne hdecl
    · rw [helig] at hfail
      cases hfail
  unfold handle_add
  rw [hev, hrk, hstaff]
  dsimp only
  rw [if_neg Bool.false_ne_true, if_neg hnotblock, hsig]
  dsimp only
  rw [if_pos hdiff, hold]
  dsimp only
  obtain ⟨hpend, hiss⟩ := remove_reaction_ok env st.pending mid old_emoji uid hok
  exact ⟨hiss, hpend, get_signup_upsert st.db event.id uid
    (env.displayName uid) rk env.nowStr, rfl⟩

/-- The role configuration of the C1 witness: two open roles and the
declined glyph. -/
def cfgC1 : RolesConfig :=
  ⟨[⟨"tank", "Tank", "T", [], ""⟩, ⟨"dps", "DPS", "D", [], ""⟩], "X"⟩

/-- The store of the C1 witness: one tracked event and a signup for the
tank role held by u1. -/
def dbC1 : DB :=
  ⟨[⟨1, "m1", "c", "u9", "Op", "", "2026-03-01T19:00:00+00:00",
      "2026-02-01T00:00:00+00:00", false, false⟩],
    [⟨1, "u1", "Old Name", "tank", "t0"⟩]⟩

/-- The collaborator oracles of the C1 witness. -/
def envC1 : Env :=
  ⟨fun _ => false, fun _ => some [], fun _ => "New Name", fun _ => true, "t1"⟩

/-- Witness for C1: u1, signed up as tank, reacts with the DPS glyph; the
handler issues exactly the removal of the tank glyph, tracks it as pending,
and the final signup row is the DPS one with the fresh display name. -/
theorem claim_C1_witness :
    (handle_add envC1 cfgC1 ⟨dbC1, []⟩ "m1" "u1" "D").2.1 = [("m1", "u1", "T")]
    ∧ (handle_add envC1 cfgC1 ⟨dbC1, []⟩ "m1" "u1" "D").1.pending.contains
        ("m1", "u1", "T") = true
    ∧ get_signup (handle_add envC1 cfgC1 ⟨dbC1, []⟩ "m1" "u1" "D").1.db 1 "u1"
        = some ⟨1, "u1", "New Name", "dps", "t1"⟩
    ∧ (handle_add envC1 cfgC1 ⟨dbC1, []⟩ "m1" "u1" "D").2.2 = [1] :=
  claim_C1 envC1 cfgC1 ⟨dbC1, []⟩ "m1" "u1" "D" "dps" "T"
    ⟨1, "m1", "c", "u9", "Op", "", "2026-03-01T19:00:00+00:00",
      "2026-02-01T00:00:00+00:00", false, false⟩
    ⟨1, "u1", "Old Name", "tank", "t0"⟩
    (by decide) (by decide) rfl (Or.inr rfl) (by decide) (by decide)
    (by decide) rfl

theorem reminder_go_nil (throws : Event → Bool) (db : DB) :
    reminder_go throws [] db = db := rfl

theorem reminder_go_cons (throws : Event → Bool) (x : Event) (rest : List Event)
    (db : DB) :
    reminder_go throws (x :: rest) db
      = if throws x then db
        else reminder_go throws rest (mark_reminder_sent db x.id) := rfl

theorem cleanup_go_nil (throws : Event → Bool) (db : DB) :
    cleanup_go throws [] db = (db, []) := rfl

theorem cleanup_go_cons (throws : Event → Bool) (x : Event) (rest : List Event)
    (db : DB) :
    cleanup_go throws (x :: rest) db
      = if throws x then (db, [x.message_id])
        else ((cleanup_go throws rest (mark_event_expired db x.id)).1,
          x.message_id :: (cleanup_go throws rest (mark_event_expired db x.id)).2) := by
  conv_lhs => unfold cleanup_go

/-- The store after a failing sweep over a list equals the store after a
failure-free sweep over the prefix before the first failure. -/
theorem reminder_go_takeWhile (throws : Event → Bool) (l : List Event) (db : DB) :
    reminder_go throws l db
      = reminder_go (fun _ => false) (l.takeWhile (fun e => ! throws e)) db := by
  induction l generalizing db with
  | nil => rfl
  | cons x rest ih =>
    rcases Bool.eq_false_or_eq_true (throws x) with ht | hf
    · rw [reminder_go_cons, if_pos ht, List.takeWhile_cons, ht]
      simp [reminder_go_nil]
    · rw [reminder_go_cons, if_neg (by rw [hf]; exact Bool.false_ne_true),
        ih (mark_reminder_sent db x.id), List.takeWhile_cons, hf]
      simp [reminder_go_cons]

/-- Same prefix property for the cleanup sweep's store component. -/
theorem cleanup_go_takeWhile (throws : Event → Bool) (l : List Event) (db : DB) :
    (cleanup_go throws l db).1
      = (cleanup_go (fun _ => false) (l.takeWhile (fun e => ! throws e)) db).1 := by
  induction l generalizing db with
  | nil => rfl
  | cons x rest ih =>
    rcases Bool.eq_false_or_eq_true (throws x) with ht | hf
    · rw [cleanup_go_cons, if_pos ht, List.takeWhile_cons, ht]
      simp [cleanup_go_nil]
    · rw [cleanup_go_cons, if_neg (by rw [hf]; exact Bool.false_ne_true),
        List.takeWhile_cons, hf]
      simp only [Bool.not_false, if_true, cleanup_go_cons, Bool.false_eq_true,
        if_false]
      exact ih (mark_event_expired db x.id)

/-- The cleanup sweep never touches the signups table. -/
theorem cleanup_go_signups (throws : Event → Bool) (l : List Event) (db : DB) :
    (cleanup_go throws l db).1.signups = db.signups := by
  induction l generalizing db with
  | nil => rfl
  | cons x rest ih =>
    rw [cleanup_go_cons]
    split
    · rfl
    · exact ih (mark_event_expired db x.id)

/-- A failure-free cleanup sweep attempts the remote deletion of every
selected event's message, in order. -/
theorem cleanup_go_deletions (l : List Event) (db : DB) :
    (cleanup_go (fun _ => false) l db).2 = l.map Event.message_id := by
  induction l generalizing db with
  | nil => rfl
  | cons x rest ih =>
    rw [cleanup_go_cons, if_neg Bool.false_ne_true, List.map_cons,
      ih (mark_event_expired db x.id)]

/-- mark_event_expired only sets the flag of the matching id; an
already-retired id stays retired through further cleanup processing. -/
theorem cleanup_go_keeps_marked (throws : Event → Bool) (l : List Event)
    (db : DB) (i : Nat)
    (h : ∀ e' ∈ db.events, e'.id = i → e'.expired = true) :
    ∀ e' ∈ (cleanup_go throws l db).1.events, e'.id = i → e'.expired = true := by
  induction l generalizing db with
  | nil => exact h
  | cons x rest ih =>
    rw [cleanup_go_cons]
    split
    · exact h
    · refine ih (mark_event_expired db x.id) ?_
      intro e' he' hi
      unfold mark_event_expired at he'
      simp only [List.mem_map] at he'
      obtain ⟨a, ha, rfl⟩ := he'
      by_cases hax : a.id = x.id
      · rw [if_pos hax]
      · rw [if_neg hax] at hi ⊢
        exact h a ha hi

/-- An event processed by a failure-free cleanup sweep ends up retired (for
every row carrying its id). -/
theorem cleanup_go_marks (l : List Event) (db : DB) (e : Event) (hel : e ∈ l) :
    ∀ e' ∈ (cleanup_go (fun _ => false) l db).1.events, e'.id = e.id →
      e'.expired = true := by
  induction l generalizing db with
  | nil => cases hel
  | cons x rest ih =>
    rw [cleanup_go_cons, if_neg Bool.false_ne_true]
    rcases List.mem_cons.mp hel with rfl | hmem
    · refine cleanup_go_keeps_marked _ rest (mark_event_expired db e.id) e.id ?_
      intro e' he' hi
      unfold mark_event_expired at he'
      simp only [List.mem_map] at he'
      obtain ⟨a, ha, rfl⟩ := he'
      by_cases hax : a.id = e.id
      · rw [if_pos hax]
      · rw [if_neg hax] at hi ⊢
        exact absurd hi hax
    · exact ih (mark_event_expired db x.id) hmem

/-- The event and signup of the C3 counterexample: a stale active event
(well past the grace cutoff) with one signup. -/
def eventC3 : Event :=
  ⟨1, "m1", "c", "u", "Old Op", "", "2026-10-11T00:00:00+00:00",
    "2026-10-01T00:00:00+00:00", false, false⟩

/-- The signup row of the C3 counterexample. -/
def signupC3 : Signup := ⟨1, "u1", "Alice", "tank", "t0"⟩

/-- The store of the C3 counterexample. -/
def dbC3 : DB := ⟨[eventC3], [signupC3]⟩

/-- Counterexample to C3 as stated: one failure-free cleanup iteration over
a store holding one stale event and its signup retires the event — yet the
signup row is still there afterwards, so a Signup row for a retired event
does remain in the store (the sweep performs no cascading signup
deletion). The grace cutoff is now − 24 h with the event 36 h past. -/
theorem claim_C3_counterexample :
    (cleanup_iteration (fun _ => false) dbC3 "2026-10-11T12:00:00+00:00").1.events
      = [{ eventC3 with expired := true }]
    ∧ (cleanup_iteration (fun _ => false) dbC3
        "2026-10-11T12:00:00+00:00").1.signups = [signupC3] := by
  decide

/-- Claim C3 amended: one cleanup iteration attempts the remote deletion of
every selected event's message (best-effort, failures caught and logged)
and marks each selected event retired; it does not delete any Signup row —
the signups table is exactly what it was, so rows belonging to retired
events remain (only the explicit delete command removes them). -/
theorem claim_C3_amended (db : DB) (cutoff : String) :
    (cleanup_iteration (fun _ => false) db cutoff).1.signups = db.signups
    ∧ (cleanup_iteration (fun _ => false) db cutoff).2
        = (get_expired_events db cutoff).map Event.message_id
    ∧ (∀ e ∈ get_expired_events db cutoff,
        ∀ e' ∈ (cleanup_iteration (fun _ => false) db cutoff).1.events,
          e'.id = e.id → e'.expired = true) := by
  refine ⟨cleanup_go_signups _ _ db, cleanup_go_deletions _ db, ?_⟩
  intro e he e' he' hi
  exact cleanup_go_marks (get_expired_events db cutoff) db e he e' he' hi

/-- Witness for C3 amended, at the counterexample store: the signup row
survives the sweep and the one stale message's deletion is attempted. -/
theorem claim_C3_amended_witness :
    (cleanup_iteration (fun _ => false) dbC3 "2026-10-11T12:00:00+00:00").1.signups
      = dbC3.signups
    ∧ (cleanup_iteration (fun _ => false) dbC3 "2026-10-11T12:00:00+00:00").2
      = (get_expired_events dbC3 "2026-10-11T12:00:00+00:00").map Event.message_id :=
  ⟨(claim_C3_amended dbC3 "2026-10-11T12:00:00+00:00").1,
   (claim_C3_amended dbC3 "2026-10-11T12:00:00+00:00").2.1⟩

/-- An event whose id is hit by none of the processed list's ids passes
through the reminder sweep untouched. -/
theorem reminder_go_untouched (throws : Event → Bool) (l : List Event)
    (db : DB) (e : Event) (he : e ∈ db.events)
    (hne : ∀ x ∈ l, x.id ≠ e.id) :
    e ∈ (reminder_go throws l db).events := by
  induction l generalizing db with
  | nil => exact he
  | cons x rest ih =>
    rw [reminder_go_cons]
    split
    · exact he
    · refine ih (mark_reminder_sent db x.id) ?_
        (fun y hy => hne y (List.mem_cons_of_mem x hy))
      unfold mark_reminder_sent
      simp only [List.mem_map]
      refine ⟨e, he, ?_⟩
      rw [if_neg]
      intro hid
      exact hne x (List.mem_cons_self x rest) hid.symm

/-- The two qualifying events of the C4 counterexample. -/
def eventC4a : Event :=
  ⟨1, "m1", "c", "u", "Op A", "", "2026-10-12T12:10:00+00:00",
    "2026-10-01T00:00:00+00:00", false, false⟩

/-- The second qualifying event of the C4 counterexample. -/
def eventC4b : Event :=
  ⟨2, "m2", "c", "u", "Op B", "", "2026-10-12T12:12:00+00:00",
    "2026-10-01T00:00:00+00:00", false, false⟩

/-- The store of the C4 counterexample. -/
def dbC4 : DB := ⟨[eventC4a, eventC4b], []⟩

/-- The failure oracle of the C4 counterexample: processing the first event
raises. -/
def throwsC4 : Event → Bool := fun e => e.id = 1

/-- Counterexample to C4 as stated: both events are in the same sweep's
selected list, with event 2 after event 1; processing event 1 raises, and
the iteration then leaves the store entirely unchanged — event 2 is never
processed in that sweep (its reminder flag is still unset), although the
exception was caught and the loop survives. -/
theorem claim_C4_counterexample :
    get_events_needing_reminder dbC4 "2026-10-12T12:00:00+00:00"
        "2026-10-12T12:15:00+00:00" = [eventC4a, eventC4b]
    ∧ throwsC4 eventC4a = true
    ∧ reminder_iteration throwsC4 dbC4 "2026-10-12T12:00:00+00:00"
        "2026-10-12T12:15:00+00:00" = dbC4 := by
  decide

/-- Claim C4 amended: an exception while processing one event is caught
(and logged) at the sweep-iteration level, so the loop and all future
sweeps survive — but the remaining events of the same sweep list are
skipped, not processed: each iteration behaves exactly like a failure-free
iteration over the longest prefix of its selected list on which nothing
raises (for both the reminder and the cleanup sweep), and a skipped
reminder event keeps its flags, so the next sweep selects it again. -/
theorem claim_C4_amended (throws : Event → Bool) (db : DB)
    (now cutoff gcutoff : String)
    (hnodup : (db.events.map Event.id).Nodup) :
    reminder_iteration throws db now cutoff
      = reminder_go (fun _ => false)
          ((get_events_needing_reminder db now cutoff).takeWhile
            (fun e => ! throws e)) db
    ∧ (cleanup_iteration throws db gcutoff).1
      = (cleanup_go (fun _ => false)
          ((get_expired_events db gcutoff).takeWhile (fun e => ! throws e)) db).1
    ∧ (∀ e ∈ get_events_needing_reminder db now cutoff,
        e ∉ (get_events_needing_reminder db now cutoff).takeWhile
          (fun e => ! throws e) →
        e ∈ get_events_needing_reminder
          (reminder_iteration throws db now cutoff) now cutoff) := by
  refine ⟨reminder_go_takeWhile throws _ db, cleanup_go_takeWhile throws _ db, ?_⟩
  intro e hsel hnp
  have hself : ∀ x ∈ (get_events_needing_reminder db now cutoff).takeWhile
      (fun e => ! throws e), x.id ≠ e.id := by
    intro x hx hid
    have hxsel : x ∈ get_events_needing_reminder db now cutoff :=
      List.takeWhile_subset _ hx
    have hxdb : x ∈ db.events := List.mem_of_mem_filter hxsel
    have hedb : e ∈ db.events := List.mem_of_mem_filter hsel
    have hxe : x = e := List.inj_on_of_nodup_map hnodup hxdb hedb hid
    rw [hxe] at hx
    exact hnp hx
  have hmem : e ∈ (reminder_iteration throws db now cutoff).events := by
    unfold reminder_iteration
    rw [reminder_go_takeWhile throws _ db]
    exact reminder_go_untouched _ _ db e (List.mem_of_mem_filter hsel) hself
  unfold get_events_needing_reminder at hsel ⊢
  rw [List.mem_filter] at hsel ⊢
  exact ⟨hmem, hsel.2⟩

/-- Witness for C4 amended: at the counterexample store, the failing
iteration equals the failure-free iteration over the empty prefix, and the
skipped second event is selected again by the next sweep. -/
theorem claim_C4_amended_witness :
    reminder_iteration throwsC4 dbC4 "2026-10-12T12:00:00+00:00"
        "2026-10-12T12:15:00+00:00"
      = reminder_go (fun _ => false)
          ((get_events_needing_reminder dbC4 "2026-10-12T12:00:00+00:00"
              "2026-10-12T12:15:00+00:00").takeWhile (fun e => ! throwsC4 e)) dbC4
    ∧ eventC4b ∈ get_events_needing_reminder
        (reminder_iteration throwsC4 dbC4 "2026-10-12T12:00:00+00:00"
          "2026-10-12T12:15:00+00:00")
        "2026-10-12T12:00:00+00:00" "2026-10-12T12:15:00+00:00" :=
  ⟨(claim_C4_amended throwsC4 dbC4 "2026-10-12T12:00:00+00:00"
      "2026-10-12T12:15:00+00:00" "2026-10-11T12:00:00+00:00" (by decide)).1,
   (claim_C4_amended throwsC4 dbC4 "2026-10-12T12:00:00+00:00"
      "2026-10-12T12:15:00+00:00" "2026-10-11T12:00:00+00:00" (by decide)).2.2
      eventC4b (by decide) (by decide)⟩

/-- Claim C7: parse_event_time maps the input string 2026-03-01 14:00 under
America/New_York (still EST on that date: daylight saving starts only on
the second Sunday, March 8) to the UTC instant 2026-03-01T19:00Z, epoch
second 1772391600; every successfully parsed input denoting an instant
before the call time raises the TimeParseError with the past-time message;
every nonempty input the dateutil oracle cannot parse raises the
TimeParseError whose message carries the user-facing format hint (and the
empty input the no-time message). -/
theorem claim_C7 (dateutil : String → Option NaiveDT) (now : Int) :
    (dateutil "2026-03-01 14:00" = some ⟨2026, 3, 1, 14, 0, none⟩ →
      now ≤ utcEpoch 2026 3 1 19 0 →
      parse_event_time dateutil now "2026-03-01 14:00"
        = .ok (utcEpoch 2026 3 1 19 0))
    ∧ utcEpoch 2026 3 1 19 0 = 1772391600
    ∧ (∀ raw p, pyStrip raw ≠ "" → dateutil (pyStrip raw) = some p →
        (match p.tzoffset with
         | some off => utcEpoch p.year p.month p.day p.hour p.minute - off
         | none => nyLocalToUTC p.year p.month p.day p.hour p.minute) < now →
        parse_event_time dateutil now raw = .error (msgPast (pyStrip raw)))
    ∧ (∀ raw, pyStrip raw ≠ "" → dateutil (pyStrip raw) = none →
        parse_event_time dateutil now raw
          = .error (msgCouldNotUnderstand (pyStrip raw)))
    ∧ (∀ raw, pyStrip raw = "" →
        parse_event_time dateutil now raw = .error msgNoTime) := by
  refine ⟨?_, by decide, ?_, ?_, ?_⟩
  · intro h hle
    have htrim : pyStrip "2026-03-01 14:00" = "2026-03-01 14:00" := by decide
    unfold parse_event_time
    dsimp only
    rw [htrim, if_neg (by decide), h]
    dsimp only
    have hny : nyLocalToUTC 2026 3 1 14 0 = utcEpoch 2026 3 1 19 0 := by decide
    rw [hny, if_neg (not_lt.mpr hle)]
  · intro raw p hne hp hpast
    unfold parse_event_time
    dsimp only
    rw [if_neg hne, hp]
    dsimp only
    rw [if_pos hpast]
  · intro raw hne hnone
    unfold parse_event_time
    dsimp only
    rw [if_neg hne, hnone]
  · intro raw hempty
    unfold parse_event_time
    dsimp only
    rw [if_pos hempty]

/-- The dateutil oracle of the C7 witness: it parses exactly the claim's
input (to the naive fields dateutil returns for it) and nothing else. -/
def dateutilC7 : String → Option NaiveDT :=
  fun s => if s = "2026-03-01 14:00" then some ⟨2026, 3, 1, 14, 0, none⟩ else none

/-- Witness for C7, with the call time at epoch 0: the claim input parses
to 2026-03-01T19:00Z, garbage raises the hint-carrying error, the empty
string the no-time error, and at a call time one second past the instant
the same input raises the past-time error. -/
theorem claim_C7_witness :
    parse_event_time dateutilC7 0 "2026-03-01 14:00" = .ok 1772391600
    ∧ parse_event_time dateutilC7 0 "garbage"
      = .error (msgCouldNotUnderstand "garbage")
    ∧ parse_event_time dateutilC7 0 "   " = .error msgNoTime
    ∧ parse_event_time dateutilC7 1772391601 "2026-03-01 14:00"
      = .error (msgPast "2026-03-01 14:00") := by
  have h0 := claim_C7 dateutilC7 0
  have h1 := claim_C7 dateutilC7 1772391601
  refine ⟨?_, ?_, ?_, ?_⟩
  · rw [← h0.2.1]
    exact h0.1 (by decide) (by decide)
  · have := h0.2.2.2.1 "garbage" (by decide) (by decide)
    rw [show pyStrip "garbage" = "garbage" by decide] at this
    exact this
  · exact h0.2.2.2.2 "   " (by decide)
  · have := h1.2.2.1 "2026-03-01 14:00" ⟨2026, 3, 1, 14, 0, none⟩
      (by decide) (by decide) (by decide)
    rw [show pyStrip "2026-03-01 14:00" = "2026-03-01 14:00" by decide] at this
    exact this

/-- The time step as claim C8 words it — an initial attempt plus up to
three further chances, four attempts in all — written only to be compared
against the source's collect_time, whose loop runs `max_retries = 3`
attempts in total. -/
def collect_time_per_claim (parse : String → Option Int)
    (script : List (Option String)) : Option Int :=
  collect_go parse 4 script

/-- The parse oracle of the C8 counterexample: only the string 2026 parses. -/
def parseC8 : String → Option Int := fun s => if s = "2026" then some 42 else none

/-- The script of the C8 counterexample: three unparsable replies, then a
parsable one. -/
def scriptC8 : List (Option String) :=
  [some "bad", some "bad", some "bad", some "2026"]

/-- Counterexample to C8 as stated: were the user given three further
chances after the initial attempt, the fourth, parsable reply would
succeed — but the source's loop aborts after three attempts in total, so
the dialogue returns nothing (and no event is created) even though a
fourth chance would have parsed. -/
theorem claim_C8_counterexample :
    collect_time parseC8 scriptC8 = none
    ∧ collect_time_per_claim parseC8 scriptC8 = some 42
    ∧ wizard_creates_event parseC8
        (some "Title" :: some "Briefing" :: scriptC8) = false := by
  decide

/-- Claim C8 amended: the time step gives the user 3 attempts in total —
the initial attempt plus up to 2 retries. An unparsable reply within the
first two attempts is re-prompted; after the third unparsable reply the
dialogue aborts and no event is created. -/
theorem claim_C8_amended (parse : String → Option Int) (r1 r2 r3 : String)
    (rest : List (Option String))
    (h1 : parse (pyStrip r1) = none) (h1c : pyLower (pyStrip r1) ≠ "cancel")
    (h2 : parse (pyStrip r2) = none) (h2c : pyLower (pyStrip r2) ≠ "cancel")
    (h3 : parse (pyStrip r3) = none) (h3c : pyLower (pyStrip r3) ≠ "cancel") :
    collect_time parse (some r1 :: some r2 :: some r3 :: rest) = none
    ∧ wizard_creates_event parse
        (some "Title" :: some "Briefing" :: some r1 :: some r2 :: some r3 :: rest)
      = false
    ∧ (∀ (q1 q2 : String) (u : Int) (qrest : List (Option String)),
        parse (pyStrip q1) = none → pyLower (pyStrip q1) ≠ "cancel" →
        pyLower (pyStrip q2) ≠ "cancel" → parse (pyStrip q2) = some u →
        collect_time parse (some q1 :: some q2 :: qrest) = some u) := by
  have habort :
      collect_time parse (some r1 :: some r2 :: some r3 :: rest) = none := by
    unfold collect_time collect_go
    dsimp only
    rw [if_neg h1c, h1]
    unfold collect_go
    dsimp only
    rw [if_neg h2c, h2]
    unfold collect_go
    dsimp only
    rw [if_neg h3c, h3]
    rfl
  refine ⟨habort, ?_, ?_⟩
  · unfold wizard_creates_event run_wizard
    rw [show takeDM (some "Title" :: some "Briefing" :: some r1 :: some r2
        :: some r3 :: rest) = some ("Title", some "Briefing" :: some r1
        :: some r2 :: some r3 :: rest) from rfl]
    dsimp only
    rw [if_neg (by decide)]
    rw [show takeDM (some "Briefing" :: some r1 :: some r2 :: some r3 :: rest)
        = some ("Briefing", some r1 :: some r2 :: some r3 :: rest) from rfl]
    dsimp only
    rw [if_neg (by decide), habort]
    rfl
  · intro q1 q2 u qrest hq1 hq1c hq2c hq2
    unfold collect_time collect_go
    dsimp only
    rw [if_neg hq1c, hq1]
    unfold collect_go
    dsimp only
    rw [if_neg hq2c, hq2]

/-- Witness for C8 amended: two bad replies then nothing parsable in the
third ends with no time and no event; a parse success on the second
attempt (first retry) is returned. -/
theorem claim_C8_amended_witness :
    collect_time parseC8 [some "bad", some "bad", some "bad"] = none
    ∧ wizard_creates_event parseC8
        (some "Title" :: some "Briefing"
          :: [some "bad", some "bad", some "bad"]) = false
    ∧ collect_time parseC8 [some "bad", some "2026"] = some 42 := by
  have h := claim_C8_amended parseC8 "bad" "bad" "bad" []
    (by decide) (by decide) (by decide) (by decide) (by decide) (by decide)
  exact ⟨h.1, h.2.1,
    h.2.2 "bad" "2026" 42 [] (by decide) (by decide) (by decide) (by decide)⟩

end Ratatoskr
